import Mathlib

/-!
Shallow embedding of `fanatic` (src/main.go): a scraper that fetches the
KCRW Henry Rollins show page, extracts episodes via a secondary per-episode
JSON fetch, and assembles a podcast feed.

Modelling conventions:
* Go `(T, error)` returns become `Except String T` (`.error` = non-nil error).
* `time.Time` is modelled as a calendar `DateTime` record (the program only
  parses layout `2006-01-02T15:04:05Z`, which carries no zone and is read as
  UTC; no zone conversion ever happens, so the record has no zone field).
* `time.Duration` is an `Int` count of nanoseconds, as in Go.
* Network I/O is an oracle parameter: the primary page fetch/parse yields an
  `Except String (List Element)` (the selector's matches in document order);
  each secondary fetch is `String → Option JsonValue` (`none` = `get` failed),
  returning the payload at the level gjson reads it.
-/

namespace Fanatic

/-- Modelled from the spec: the JSON structured-field accessor (the gjson
library, not part of this repository) views a payload as a tree of nulls,
strings, numbers, arrays and objects. The program only reads string and
integer fields, so numbers are carried as integers. -/
inductive JsonValue where
  | null : JsonValue
  | str : String → JsonValue
  | num : Int → JsonValue
  | arr : List JsonValue → JsonValue
  | obj : List (String × JsonValue) → JsonValue

/-- First binding of a key in an object's field list. -/
def lookupField (fields : List (String × JsonValue)) (key : String) : Option JsonValue :=
  match fields with
  | [] => none
  | (k, v) :: rest => if k = key then some v else lookupField rest key

/-- Value of a non-empty all-digit character sequence, `none` otherwise. -/
def digitsToNat (acc : Nat) : List Char → Option Nat
  | [] => some acc
  | c :: rest =>
    if c.isDigit then digitsToNat (10 * acc + (c.toNat - 48)) rest else none

/-- A path component that is a non-empty decimal numeral, read as an array
index. -/
def pathIndex (s : String) : Option Nat :=
  match s.toList with
  | [] => none
  | cs => digitsToNat 0 cs

/-- Modelled from the spec: one step of dotted/indexed path lookup — a key
selects an object field, a numeric component indexes an array. -/
def gjsonStep (j : JsonValue) (key : String) : Option JsonValue :=
  match j with
  | .obj fields => lookupField fields key
  | .arr xs =>
    match pathIndex key with
    | some i => xs.get? i
    | none => none
  | _ => none

/-- Modelled from the spec: dotted/indexed path lookup over a JSON payload
(`gjson.Get`), with a defined missing-path behaviour (`none`). The path is
given as its dot-separated components, e.g. `media.0.url` = `[media, 0, url]`. -/
def gjsonGet (j : JsonValue) (path : List String) : Option JsonValue :=
  match path with
  | [] => some j
  | k :: rest =>
    match gjsonStep j k with
    | some v => gjsonGet v rest
    | none => none

/-- Modelled from the spec: `Result.String()` — typed string extraction with
empty string for a missing path or null; a number renders in decimal. -/
def goString : Option JsonValue → String
  | some (.str s) => s
  | some (.num n) => toString n
  | _ => ""

/-- Modelled from the spec: `Result.Int()` — typed integer extraction with
zero for a missing path or a non-numeric value. -/
def goInt : Option JsonValue → Int
  | some (.num n) => n
  | _ => 0

/-- Calendar timestamp, as produced by Go's `time.Parse` on the zone-less
layout `2006-01-02T15:04:05Z` (read as UTC; no zone conversion occurs). -/
structure DateTime where
  year : Int
  month : Nat
  day : Nat
  hour : Nat
  minute : Nat
  second : Nat
deriving DecidableEq

/-- Go's leap-year rule (`isLeap` in package time). The `== 0` tests agree
between Go's truncated `%` and Lean's `Int.emod`. -/
def isLeap (y : Int) : Bool := y % 4 = 0 && (y % 100 ≠ 0 || y % 400 = 0)

/-- Go's `daysIn(month, year)` table. -/
def daysInMonth (y : Int) (m : Nat) : Nat :=
  match m with
  | 1 => 31
  | 2 => if isLeap y then 29 else 28
  | 3 => 31
  | 4 => 30
  | 5 => 31
  | 6 => 30
  | 7 => 31
  | 8 => 31
  | 9 => 30
  | 10 => 31
  | 11 => 30
  | 12 => 31
  | _ => 0

/-- Numeric value of a decimal digit character. -/
def digitVal (c : Char) : Nat := c.toNat - 48

/-- Go's `time.Parse("2006-01-02T15:04:05Z", s)` specialised to that fixed
layout: exactly the shape `YYYY-MM-DDTHH:MM:SSZ` with fixed-width numeric
fields, no trailing text, and `time.Parse`'s range checks (month 1–12, day
within the month including leap years, hour below 24, minute and second
below 60). -/
def parseKCRWDate (s : String) : Option DateTime :=
  match s.toList with
  | [y1, y2, y3, y4, '-', m1, m2, '-', d1, d2, 'T',
     h1, h2, ':', n1, n2, ':', s1, s2, 'Z'] =>
    if y1.isDigit && y2.isDigit && y3.isDigit && y4.isDigit &&
       m1.isDigit && m2.isDigit && d1.isDigit && d2.isDigit &&
       h1.isDigit && h2.isDigit && n1.isDigit && n2.isDigit &&
       s1.isDigit && s2.isDigit then
      let y : Int := (1000 * digitVal y1 + 100 * digitVal y2 +
                      10 * digitVal y3 + digitVal y4 : Nat)
      let mo := 10 * digitVal m1 + digitVal m2
      let da := 10 * digitVal d1 + digitVal d2
      let ho := 10 * digitVal h1 + digitVal h2
      let mi := 10 * digitVal n1 + digitVal n2
      let se := 10 * digitVal s1 + digitVal s2
      if 1 ≤ mo ∧ mo ≤ 12 ∧ 1 ≤ da ∧ da ≤ daysInMonth y mo ∧
         ho ≤ 23 ∧ mi ≤ 59 ∧ se ≤ 59 then
        some ⟨y, mo, da, ho, mi, se⟩
      else none
    else none
  | _ => none

/-- Go's `t.AddDate(0, 0, -1)` on an in-range calendar date (as `time.Parse`
produces): `Date` normalisation of day 0 rolls to the last day of the
previous month, and of month 0 to December of the previous year. The clock
fields are untouched. -/
def subOneDay (dt : DateTime) : DateTime :=
  if 1 < dt.day then { dt with day := dt.day - 1 }
  else if 1 < dt.month then
    { dt with month := dt.month - 1, day := daysInMonth dt.year (dt.month - 1) }
  else { dt with year := dt.year - 1, month := 12, day := 31 }

/-- Specification-side notion of the calendar successor day, used to state
that `subOneDay` moves backward by exactly one calendar day. -/
def nextCalendarDay (dt : DateTime) : DateTime :=
  if dt.day < daysInMonth dt.year dt.month then { dt with day := dt.day + 1 }
  else if dt.month < 12 then { dt with month := dt.month + 1, day := 1 }
  else { dt with year := dt.year + 1, month := 1, day := 1 }

/-- An in-range calendar date. -/
def ValidDate (dt : DateTime) : Prop :=
  1 ≤ dt.month ∧ dt.month ≤ 12 ∧ 1 ≤ dt.day ∧ dt.day ≤ daysInMonth dt.year dt.month

/-- Largest whole-second count representable as a 64-bit count of
nanoseconds: `(2^63 - 1) / 10^9`. -/
def maxSecondsInDuration : Nat := 9223372036

/-- Go's `time.ParseDuration(fmt.Sprintf("%ds", n))` for an int64 `n`: the
literal always has shape `<decimal>s`, so parsing fails exactly when
`n * 10^9` overflows int64 (ParseDuration's overflow check against
`(1<<63 - 1) / unit` on the magnitude); otherwise the duration is `n`
seconds, i.e. `n * 10^9` nanoseconds. -/
def parseSecondsDuration (n : Int) : Option Int :=
  if n.natAbs ≤ maxSecondsInDuration then some (n * 1000000000) else none

/-- The Episode record of src/main.go. `Duration` is in nanoseconds. -/
structure Episode where
  Title : String
  Link : String
  MP3 : String
  UUID : String
  PubDate : DateTime
  Duration : Int
deriving DecidableEq

/-- One element matched by the selector
`div.four-col.hub-row.no-border button.audio`; the program reads only its
`data-player-json` attribute (`none` when the attribute is absent). -/
structure Element where
  dataPlayerJson : Option String
deriving DecidableEq

/-- Body of the `Each` closure in `fetchEpisodes` (src/main.go lines 95–136):
read the `data-player-json` attribute, fetch the JSON payload it points to,
read the fields with gjson, parse the duration literal and the date, apply
the one-day correction, and build the Episode; any failure along the way
yields `none` (the closure's early `return`, skipping this element). -/
def extractEpisode (fetchJson : String → Option JsonValue) (el : Element) :
    Option Episode :=
  match el.dataPlayerJson with
  | none => none
  | some jurl =>
    match fetchJson jurl with
    | none => none
    | some json =>
      let id := goString (gjsonGet json ["uuid"])
      let link := goString (gjsonGet json ["url"])
      let title := goString (gjsonGet json ["title"])
      let mp3 := goString (gjsonGet json ["media", "0", "url"])
      let durstr := goInt (gjsonGet json ["duration"])
      match parseSecondsDuration durstr with
      | none => none
      | some duration =>
        let datestr := goString (gjsonGet json ["date"])
        match parseKCRWDate datestr with
        | none => none
        | some parsed =>
          some { Title := title, Link := link, MP3 := mp3, UUID := id,
                 PubDate := subOneDay parsed, Duration := duration }

/-- The `Each` loop of `fetchEpisodes`: fold over the matched elements in
document order, appending (`episodes = append(episodes, episode)`) each
successfully extracted episode. -/
def collectEpisodes (fetchJson : String → Option JsonValue)
    (els : List Element) : List Episode :=
  els.foldl
    (fun episodes el =>
      match extractEpisode fetchJson el with
      | none => episodes
      | some episode => episodes ++ [episode]) []

/-- `fetchEpisodes` (src/main.go lines 82–143). The `page` argument models
the primary `get(url)` plus goquery parse plus selector match: `.error` is a
primary fetch/parse failure (returned as-is), `.ok els` the matched elements
in document order. A batch with zero surviving episodes fails with the named
error. -/
def fetchEpisodes (fetchJson : String → Option JsonValue)
    (page : Except String (List Element)) : Except String (List Episode) :=
  match page with
  | .error e => .error e
  | .ok els =>
    let episodes := collectEpisodes fetchJson els
    if episodes.length < 1 then .error "No episodes found."
    else .ok episodes

/-- An HTTP response as `get` inspects it: the numeric status code, the
status line text (`res.Status`, e.g. `404 Not Found`), and the body text. -/
structure HttpResponse where
  statusCode : Nat
  status : String
  body : String
deriving DecidableEq

/-- Outcome of the transport for one URL: either `http.Get` (or the
subsequent body read) fails with an error, or a response arrives. -/
inductive TransportResult where
  | failed : String → TransportResult
  | got : HttpResponse → TransportResult
deriving DecidableEq

/-- `get` (src/main.go lines 59–77) applied to the transport's outcome for
the requested URL: a transport failure propagates; a status other than
exactly 200 becomes `errors.New(fmt.Sprintf("status code error: %d %s",
res.StatusCode, res.Status))`; otherwise the body is returned. -/
def get : TransportResult → Except String String
  | .failed e => .error e
  | .got res =>
    if res.statusCode ≠ 200 then
      .error ("status code error: " ++ toString res.statusCode ++ " " ++ res.status)
    else .ok res.body

/-- Modelled from the spec: the `podcasts.Enclosure` struct (library not in
this repository). Its `Type` field is named `MIMEType` here because `Type`
is reserved in Lean. -/
structure Enclosure where
  URL : String
  MIMEType : String
deriving DecidableEq

/-- Modelled from the spec: a `podcasts.Item` restricted to the fields this
program sets; `NewDuration` and `NewPubDate` are value wrappers, modelled as
the identity. -/
structure Item where
  Title : String
  GUID : String
  Duration : Int
  Enclosure : Option Enclosure
  PubDate : DateTime
deriving DecidableEq

/-- Modelled from the spec: a `podcasts.Podcast` restricted to the fields
this program sets, with `AddItem` appending to the item list. -/
structure Podcast where
  Title : String
  Description : String
  Language : String
  Copyright : String
  Link : String
  Items : List Item
deriving DecidableEq

/-- `podcasts.Podcast.AddItem`: append one item. -/
def addItem (p : Podcast) (item : Item) : Podcast :=
  { p with Items := p.Items ++ [item] }

/-- The scrape endpoint constant of src/main.go. -/
def endpoint : String := "https://www.kcrw.com/music/shows/henry-rollins"

/-- The podcast literal of `generateXML` (src/main.go lines 151–157). -/
def basePodcast : Podcast :=
  { Title := "Henry Rollins - KCRW",
    Description := "Henry Rollins hosts a mix of all kinds, from all over and all time.",
    Language := "EN",
    Copyright := "KCRW",
    Link := endpoint,
    Items := [] }

/-- The item loop of `generateXML` (src/main.go lines 159–170): one
`AddItem` per episode, in order, with the literal field mapping of the
source. -/
def buildPodcast (episodes : List Episode) : Podcast :=
  episodes.foldl
    (fun podcast episode =>
      addItem podcast
        { Title := episode.Title,
          GUID := episode.UUID,
          Duration := episode.Duration,
          Enclosure := some { URL := episode.MP3, MIMEType := "MP3" },
          PubDate := episode.PubDate })
    basePodcast

/-- `generateXML` (src/main.go lines 145–180). The `feed` oracle models
`podcast.Feed()` followed by `feed.Write` into a buffer (the serializer is
an external library): `.ok s` is the serialized text, `.error` a builder
failure. The source handles a builder failure with `return "", nil` — an
empty document and a nil error — which this definition reproduces as
`.ok ""`. -/
def generateXML (fetchJson : String → Option JsonValue)
    (page : Except String (List Element))
    (feed : Podcast → Except String String) : Except String String :=
  match fetchEpisodes fetchJson page with
  | .error e => .error e
  | .ok episodes =>
    match feed (buildPodcast episodes) with
    | .error _ => .ok ""
    | .ok out => .ok out

/-- The server's shared state (src/main.go `main`): the `xml` and `err`
variables assigned together by `xml, err = generateXML()` at startup and on
every tick. -/
structure ServerState where
  xml : String
  err : Option String
deriving DecidableEq

/-- Effect of one `xml, err = generateXML()` assignment on the shared state:
both variables are overwritten (on failure `generateXML` returns the pair
`("", err)`, so the previous document is discarded). -/
def applyGeneration (r : Except String String) : ServerState :=
  match r with
  | .ok s => { xml := s, err := none }
  | .error e => { xml := "", err := some e }

/-- The most recent generation result after the initial run `first` and the
ticker's runs `refreshes` in order. -/
def lastGeneration (first : Except String String) :
    List (Except String String) → Except String String
  | [] => first
  | r :: rs => lastGeneration r rs

/-- Server state after the initial generation and a sequence of hourly
refreshes: each tick performs the assignment in order. -/
def serverStateAfter (first : Except String String)
    (refreshes : List (Except String String)) : ServerState :=
  refreshes.foldl (fun _ r => applyGeneration r) (applyGeneration first)

/-- The `/rss.xml` handler body (src/main.go lines 213–220): if `err` is
non-nil, write `fmt.Sprintf("error!\n%s", err)`; otherwise write `xml`. -/
def rssHandler (st : ServerState) : String :=
  match st.err with
  | some e => "error!\n" ++ e
  | none => st.xml

/-- Concrete secondary-fetch payload used in witnesses: a complete episode
JSON document. -/
def payload0 : JsonValue :=
  .obj [("uuid", .str "id1"),
        ("url", .str "https://www.kcrw.com/ep1"),
        ("title", .str "Ep 1"),
        ("media", .arr [.obj [("url", .str "https://media.kcrw.com/ep1.mp3")]]),
        ("duration", .num 3480),
        ("date", .str "2021-06-15T10:00:00Z")]

/-- Concrete element whose attribute points at `payload0`. -/
def el0 : Element := ⟨some "https://www.kcrw.com/player/ep1.json"⟩

/-- Concrete secondary-fetch oracle serving `payload0` for every URL. -/
def fetch0 : String → Option JsonValue := fun _ => some payload0

/-- The episode `extractEpisode fetch0 el0` produces. -/
def ep0 : Episode :=
  { Title := "Ep 1",
    Link := "https://www.kcrw.com/ep1",
    MP3 := "https://media.kcrw.com/ep1.mp3",
    UUID := "id1",
    PubDate := ⟨2021, 6, 14, 10, 0, 0⟩,
    Duration := 3480000000000 }

/-- A secondary payload with a valid date and duration but no `uuid`,
`url` or `media` fields at all. -/
def payloadMissing : JsonValue :=
  .obj [("title", .str "Orphan"),
        ("duration", .num 60),
        ("date", .str "2021-06-15T10:00:00Z")]

/-- Concrete element whose attribute points at `payloadMissing`. -/
def elMissing : Element := ⟨some "https://www.kcrw.com/player/missing.json"⟩

/-- Secondary-fetch oracle serving `payloadMissing` for every URL. -/
def fetchMissing : String → Option JsonValue := fun _ => some payloadMissing

/-- The episode `extractEpisode fetchMissing elMissing` produces: the
missing fields come out as empty strings. -/
def epMissing : Episode :=
  { Title := "Orphan", Link := "", MP3 := "", UUID := "",
    PubDate := ⟨2021, 6, 14, 10, 0, 0⟩, Duration := 60000000000 }

/-- A secondary payload whose date string does not parse. -/
def payloadBadDate : JsonValue :=
  .obj [("duration", .num 60), ("date", .str "not-a-date")]

/-- Concrete element whose attribute points at `payloadBadDate`. -/
def elBad : Element := ⟨some "https://www.kcrw.com/player/bad.json"⟩

/-- Oracle serving `payload0` for `el0`'s URL and `payloadBadDate`
elsewhere. -/
def fetch1 : String → Option JsonValue := fun u =>
  if u = "https://www.kcrw.com/player/ep1.json" then some payload0
  else some payloadBadDate

/-- A secondary payload whose integer duration overflows int64 nanoseconds
(`9223372037 s > (2^63 - 1) ns`), making `time.ParseDuration` fail. -/
def payloadHugeDur : JsonValue :=
  .obj [("duration", .num 9223372037),
        ("date", .str "2021-06-15T10:00:00Z")]

/-- Concrete element whose attribute points at `payloadHugeDur`. -/
def elHuge : Element := ⟨some "https://www.kcrw.com/player/huge.json"⟩

/-- Oracle serving `payloadHugeDur` for every URL. -/
def fetchHuge : String → Option JsonValue := fun _ => some payloadHugeDur

/-- A 204 response: a 2xx status that is not 200. -/
def resp204 : HttpResponse := ⟨204, "204 No Content", "partial"⟩

/-- The feed item `generateXML` builds from one episode (the record literal
at src/main.go lines 160–169). -/
def itemOfEpisode (episode : Episode) : Item :=
  { Title := episode.Title,
    GUID := episode.UUID,
    Duration := episode.Duration,
    Enclosure := some { URL := episode.MP3, MIMEType := "MP3" },
    PubDate := episode.PubDate }

example : extractEpisode fetch0 el0 = some ep0 := by rfl

example : parseKCRWDate "2021-06-15T10:00:00Z" = some ⟨2021, 6, 15, 10, 0, 0⟩ := by rfl

example : parseKCRWDate "2021-06-15T10:00:00" = none := by rfl

example : parseKCRWDate "2021-02-29T10:00:00Z" = none := by rfl

example : parseKCRWDate "2020-02-29T10:00:00Z" = some ⟨2020, 2, 29, 10, 0, 0⟩ := by rfl

lemma collectEpisodes_go (f : String → Option JsonValue) (els : List Element) :
    ∀ acc : List Episode,
      els.foldl
        (fun episodes el =>
          match extractEpisode f el with
          | none => episodes
          | some episode => episodes ++ [episode]) acc
      = acc ++ els.filterMap (extractEpisode f) := by
  induction els with
  | nil => intro acc; simp
  | cons el els ih =>
    intro acc
    simp only [List.foldl_cons, List.filterMap_cons]
    cases h : extractEpisode f el with
    | none => simp only [h, ih]
    | some episode => simp only [h, ih, List.append_assoc, List.singleton_append]

lemma collectEpisodes_eq_filterMap (f : String → Option JsonValue)
    (els : List Element) :
    collectEpisodes f els = els.filterMap (extractEpisode f) := by
  simpa using collectEpisodes_go f els []

lemma parseKCRWDate_valid {s : String} {dt : DateTime}
    (h : parseKCRWDate s = some dt) : ValidDate dt := by
  unfold parseKCRWDate at h
  split at h
  · split at h
    · dsimp only at h
      split at h
      · rename_i hrange
        injection h with h
        subst h
        exact ⟨hrange.1, hrange.2.1, hrange.2.2.1, hrange.2.2.2.1⟩
      · exact absurd h (by simp)
    · exact absurd h (by simp)
  · exact absurd h (by simp)

lemma nextCalendarDay_subOneDay {dt : DateTime} (h : ValidDate dt) :
    nextCalendarDay (subOneDay dt) = dt := by
  obtain ⟨y, mo, da, ho, mi, se⟩ := dt
  obtain ⟨hm1, hm2, hd1, hd2⟩ := h
  dsimp only at hm1 hm2 hd1 hd2
  unfold subOneDay
  dsimp only
  by_cases h1 : 1 < da
  · rw [if_pos h1]
    unfold nextCalendarDay
    dsimp only
    rw [if_pos (show da - 1 < daysInMonth y mo by omega)]
    simp only [DateTime.mk.injEq, and_true, true_and]
    omega
  · rw [if_neg h1]
    by_cases h2 : 1 < mo
    · rw [if_pos h2]
      unfold nextCalendarDay
      dsimp only
      rw [if_neg (lt_irrefl (daysInMonth y (mo - 1)))]
      rw [if_pos (show mo - 1 < 12 by omega)]
      simp only [DateTime.mk.injEq, and_true, true_and]
      omega
    · rw [if_neg h2]
      unfold nextCalendarDay
      dsimp only
      rw [if_neg (show ¬ (31 < daysInMonth (y - 1) 12) by simp [daysInMonth])]
      rw [if_neg (show ¬ (12 < 12) by omega)]
      simp only [DateTime.mk.injEq, and_true, true_and]
      omega

lemma subOneDay_clock (dt : DateTime) :
    (subOneDay dt).hour = dt.hour ∧ (subOneDay dt).minute = dt.minute ∧
      (subOneDay dt).second = dt.second := by
  unfold subOneDay
  split_ifs <;> exact ⟨rfl, rfl, rfl⟩

lemma extractEpisode_eq_some {f : String → Option JsonValue} {el : Element}
    {jurl : String} {json : JsonValue} {d : Int} {dt : DateTime}
    (hattr : el.dataPlayerJson = some jurl)
    (hfetch : f jurl = some json)
    (hdur : parseSecondsDuration (goInt (gjsonGet json ["duration"])) = some d)
    (hdate : parseKCRWDate (goString (gjsonGet json ["date"])) = some dt) :
    extractEpisode f el =
      some { Title := goString (gjsonGet json ["title"]),
             Link := goString (gjsonGet json ["url"]),
             MP3 := goString (gjsonGet json ["media", "0", "url"]),
             UUID := goString (gjsonGet json ["uuid"]),
             PubDate := subOneDay dt,
             Duration := d } := by
  unfold extractEpisode
  rw [hattr]
  simp only [hfetch, hdur, hdate]

lemma extractEpisode_some_inv {f : String → Option JsonValue} {el : Element}
    {ep : Episode} (h : extractEpisode f el = some ep) :
    ∃ jurl json d dt,
      el.dataPlayerJson = some jurl ∧ f jurl = some json ∧
      parseSecondsDuration (goInt (gjsonGet json ["duration"])) = some d ∧
      parseKCRWDate (goString (gjsonGet json ["date"])) = some dt ∧
      ep = { Title := goString (gjsonGet json ["title"]),
             Link := goString (gjsonGet json ["url"]),
             MP3 := goString (gjsonGet json ["media", "0", "url"]),
             UUID := goString (gjsonGet json ["uuid"]),
             PubDate := subOneDay dt,
             Duration := d } := by
  unfold extractEpisode at h
  cases hattr : el.dataPlayerJson with
  | none => rw [hattr] at h; exact absurd h (by simp)
  | some jurl =>
    rw [hattr] at h
    dsimp only at h
    cases hfetch : f jurl with
    | none => rw [hfetch] at h; exact absurd h (by simp)
    | some json =>
      rw [hfetch] at h
      dsimp only at h
      cases hdur : parseSecondsDuration (goInt (gjsonGet json ["duration"])) with
      | none => rw [hdur] at h; exact absurd h (by simp)
      | some d =>
        rw [hdur] at h
        cases hdate : parseKCRWDate (goString (gjsonGet json ["date"])) with
        | none => rw [hdate] at h; exact absurd h (by simp)
        | some dt =>
          rw [hdate] at h
          injection h with h
          exact ⟨jurl, json, d, dt, rfl, hfetch, hdur, hdate, h.symm⟩

lemma foldl_addItem (g : Episode → Item) (episodes : List Episode) :
    ∀ p : Podcast,
      episodes.foldl (fun podcast episode => addItem podcast (g episode)) p
      = { p with Items := p.Items ++ episodes.map g } := by
  induction episodes with
  | nil => intro p; simp
  | cons e es ih =>
    intro p
    rw [List.foldl_cons, ih]
    simp [addItem, List.append_assoc]

lemma buildPodcast_eq (episodes : List Episode) :
    buildPodcast episodes =
      { basePodcast with Items := episodes.map itemOfEpisode } := by
  have h : buildPodcast episodes =
      episodes.foldl
        (fun podcast episode => addItem podcast (itemOfEpisode episode))
        basePodcast := rfl
  rw [h, foldl_addItem]
  rfl

/-- C1 (code bug at src/main.go line 174): when the feed builder fails on an
otherwise-valid episode sequence, `generateXML` executes `return "", nil`,
producing an empty document and a nil error instead of propagating the
failure. Here the batch extracts successfully to `[ep0]`, the feed oracle
fails, and the result is `.ok ""` — success with no document — not an
error. -/
theorem generateXML_swallows_feed_build_error :
    fetchEpisodes fetch0 (.ok [el0]) = .ok [ep0] ∧
    generateXML fetch0 (.ok [el0])
      (fun _ => .error "feed build failed") = .ok "" :=
  ⟨rfl, rfl⟩

/-- C2 counterexample: 204 is a 2xx status, yet `get` returns an error for
it, because the source tests `res.StatusCode != 200`, not membership in the
2xx class. This refutes the claim that `get` errors exactly on transport
failure or a non-2xx status. -/
theorem get_rejects_status_204 :
    (200 ≤ resp204.statusCode ∧ resp204.statusCode < 300) ∧
    get (.got resp204) = .error "status code error: 204 204 No Content" :=
  ⟨⟨by decide, by decide⟩, rfl⟩

/-- C2 amended: `get` returns an error iff the transport fails or the HTTP
status is not exactly 200 (so every non-200 status, including other 2xx
statuses, errors); a status error carries the numeric status code and the
status text, and on success the response body is returned. -/
theorem get_characterisation :
    ∀ (e : String) (res : HttpResponse),
      get (.failed e) = .error e ∧
      get (.got res) =
        (if res.statusCode = 200 then .ok res.body
         else .error ("status code error: " ++ toString res.statusCode ++
                      " " ++ res.status)) := by
  intro e res
  refine ⟨rfl, ?_⟩
  by_cases h : res.statusCode = 200 <;> simp [get, h]

/-- C4: a batch in which zero episodes survive extraction (in particular a
page with zero matching elements) fails with the named error
`No episodes found.`, and a successful `fetchEpisodes` always returns at
least one episode. -/
theorem fetchEpisodes_empty_batch_fails :
    ∀ (f : String → Option JsonValue) (els : List Element)
      (page : Except String (List Element)) (eps : List Episode),
      (collectEpisodes f els = [] →
        fetchEpisodes f (.ok els) = .error "No episodes found.") ∧
      (fetchEpisodes f page = .ok eps → 1 ≤ eps.length) := by
  intro f els page eps
  constructor
  · intro h
    unfold fetchEpisodes
    dsimp only
    rw [h]
    rfl
  · intro h
    cases page with
    | error e => exact absurd h (by simp [fetchEpisodes])
    | ok els2 =>
      unfold fetchEpisodes at h
      dsimp only at h
      by_cases hl : (collectEpisodes f els2).length < 1
      · rw [if_pos hl] at h
        exact absurd h (by simp)
      · rw [if_neg hl] at h
        injection h with h
        subst h
        omega

/-- C4 witness: the empty page fails with the named error, and a successful
one-element extraction has length at least one. -/
theorem fetchEpisodes_empty_batch_fails_witness :
    fetchEpisodes fetch0 (.ok ([] : List Element)) =
      .error "No episodes found." ∧
    1 ≤ ([ep0] : List Episode).length :=
  ⟨(fetchEpisodes_empty_batch_fails fetch0 [] (.ok []) []).1 rfl,
   (fetchEpisodes_empty_batch_fails fetch0 [] (.ok [el0]) [ep0]).2 (by rfl)⟩

/-- C8: the feed assembler produces exactly one item per episode, in
sequence order, mapping Title to the item title, UUID to the GUID, Duration
to the duration field, the MP3 URL with the fixed content-type label `MP3`
to the enclosure, and PubDate to the publish date, under the fixed
show-level metadata of the source. -/
theorem buildPodcast_items_map :
    ∀ episodes : List Episode,
      (buildPodcast episodes).Items = episodes.map itemOfEpisode ∧
      (∀ episode, itemOfEpisode episode =
        { Title := episode.Title,
          GUID := episode.UUID,
          Duration := episode.Duration,
          Enclosure := some { URL := episode.MP3, MIMEType := "MP3" },
          PubDate := episode.PubDate }) ∧
      (buildPodcast episodes).Title = "Henry Rollins - KCRW" ∧
      (buildPodcast episodes).Description =
        "Henry Rollins hosts a mix of all kinds, from all over and all time." ∧
      (buildPodcast episodes).Language = "EN" ∧
      (buildPodcast episodes).Copyright = "KCRW" ∧
      (buildPodcast episodes).Link = endpoint := by
  intro episodes
  rw [buildPodcast_eq]
  exact ⟨rfl, fun _ => rfl, rfl, rfl, rfl, rfl, rfl⟩

/-- C10: episode collection is exactly `filterMap` of per-element
extraction, so there is at most one episode per matching element, episodes
appear in the order of their source elements, a successful `fetchEpisodes`
returns precisely that sequence, and every produced episode comes from an
element whose `data-player-json` attribute is present and whose secondary
fetch, duration parse and date parse all succeeded. -/
theorem fetchEpisodes_order_and_provenance :
    ∀ (f : String → Option JsonValue) (els : List Element),
      collectEpisodes f els = els.filterMap (extractEpisode f) ∧
      (collectEpisodes f els).length ≤ els.length ∧
      (∀ eps, fetchEpisodes f (.ok els) = .ok eps →
        eps = els.filterMap (extractEpisode f)) ∧
      (∀ ep, ep ∈ collectEpisodes f els →
        ∃ el, el ∈ els ∧ extractEpisode f el = some ep ∧
          ∃ jurl json, el.dataPlayerJson = some jurl ∧ f jurl = some json ∧
            (∃ d, parseSecondsDuration
              (goInt (gjsonGet json ["duration"])) = some d) ∧
            (∃ dt, parseKCRWDate
              (goString (gjsonGet json ["date"])) = some dt)) := by
  intro f els
  refine ⟨collectEpisodes_eq_filterMap f els, ?_, ?_, ?_⟩
  · rw [collectEpisodes_eq_filterMap]
    exact List.length_filterMap_le _ _
  · intro eps h
    unfold fetchEpisodes at h
    dsimp only at h
    by_cases hl : (collectEpisodes f els).length < 1
    · rw [if_pos hl] at h
      exact absurd h (by simp)
    · rw [if_neg hl] at h
      injection h with h
      rw [← h, collectEpisodes_eq_filterMap]
  · intro ep hmem
    rw [collectEpisodes_eq_filterMap] at hmem
    obtain ⟨el, hel, hex⟩ := List.mem_filterMap.mp hmem
    obtain ⟨jurl, json, d, dt, hattr, hfetch, hdur, hdate, _⟩ :=
      extractEpisode_some_inv hex
    exact ⟨el, hel, hex, jurl, json, hattr, hfetch, ⟨d, hdur⟩, ⟨dt, hdate⟩⟩

/-- C10 witness: the concrete one-element page yields its one episode, with
the provenance facts instantiated there. -/
theorem fetchEpisodes_order_and_provenance_witness :
    ep0 ∈ collectEpisodes fetch0 [el0] ∧
    [ep0] = [el0].filterMap (extractEpisode fetch0) ∧
    (∃ el, el ∈ [el0] ∧ extractEpisode fetch0 el = some ep0 ∧
      ∃ jurl json, el.dataPlayerJson = some jurl ∧
        fetch0 jurl = some json ∧
        (∃ d, parseSecondsDuration
          (goInt (gjsonGet json ["duration"])) = some d) ∧
        (∃ dt, parseKCRWDate
          (goString (gjsonGet json ["date"])) = some dt)) :=
  have hmem : ep0 ∈ collectEpisodes fetch0 [el0] := by
    rw [show collectEpisodes fetch0 [el0] = [ep0] from rfl]
    exact List.mem_singleton_self ep0
  ⟨hmem,
   (fetchEpisodes_order_and_provenance fetch0 [el0]).2.2.1 [ep0] (by rfl),
   (fetchEpisodes_order_and_provenance fetch0 [el0]).2.2.2 ep0 hmem⟩

/-- C5: whenever the payload's date string parses in the fixed layout, the
episode's PubDate is the parsed timestamp moved back by exactly one
calendar day (its calendar successor is the parsed date) with the clock
fields untouched (no timezone conversion); in particular
`2021-06-15T10:00:00Z` parses to 2021-06-15 10:00:00 and moves to
2021-06-14 10:00:00. -/
theorem pubDate_one_calendar_day_back :
    (∀ (f : String → Option JsonValue) (el : Element) (ep : Episode)
       (jurl : String) (json : JsonValue) (dt : DateTime),
       el.dataPlayerJson = some jurl → f jurl = some json →
       parseKCRWDate (goString (gjsonGet json ["date"])) = some dt →
       extractEpisode f el = some ep →
       ep.PubDate = subOneDay dt ∧
       nextCalendarDay ep.PubDate = dt ∧
       ep.PubDate.hour = dt.hour ∧
       ep.PubDate.minute = dt.minute ∧
       ep.PubDate.second = dt.second) ∧
    parseKCRWDate "2021-06-15T10:00:00Z" = some ⟨2021, 6, 15, 10, 0, 0⟩ ∧
    subOneDay ⟨2021, 6, 15, 10, 0, 0⟩ = ⟨2021, 6, 14, 10, 0, 0⟩ := by
  refine ⟨?_, rfl, rfl⟩
  intro f el ep jurl json dt hattr hfetch hdate hex
  obtain ⟨jurl', json', d', dt', hattr', hfetch', hdur', hdate', hep⟩ :=
    extractEpisode_some_inv hex
  rw [hattr] at hattr'
  injection hattr' with hj
  subst hj
  rw [hfetch] at hfetch'
  injection hfetch' with hj
  subst hj
  rw [hdate] at hdate'
  injection hdate' with hj
  subst hj
  subst hep
  have hv := parseKCRWDate_valid hdate
  exact ⟨rfl, nextCalendarDay_subOneDay hv, (subOneDay_clock dt).1,
    (subOneDay_clock dt).2.1, (subOneDay_clock dt).2.2⟩

/-- C5 witness: the general statement applied to the concrete episode
`ep0`, whose payload carries the date `2021-06-15T10:00:00Z`. -/
theorem pubDate_one_calendar_day_back_witness :
    ep0.PubDate = subOneDay ⟨2021, 6, 15, 10, 0, 0⟩ ∧
    nextCalendarDay ep0.PubDate = ⟨2021, 6, 15, 10, 0, 0⟩ ∧
    ep0.PubDate.hour = (⟨2021, 6, 15, 10, 0, 0⟩ : DateTime).hour ∧
    ep0.PubDate.minute = (⟨2021, 6, 15, 10, 0, 0⟩ : DateTime).minute ∧
    ep0.PubDate.second = (⟨2021, 6, 15, 10, 0, 0⟩ : DateTime).second :=
  pubDate_one_calendar_day_back.1 fetch0 el0 ep0
    "https://www.kcrw.com/player/ep1.json" payload0 ⟨2021, 6, 15, 10, 0, 0⟩
    rfl rfl (by rfl) (by rfl)

/-- C6: an element whose payload's date string fails to parse is dropped on
its own: its extraction yields nothing, removing it from the batch leaves
the collected episodes unchanged, and the whole `fetchEpisodes` result is
the same as if the element were absent (so the batch never fails because of
it). -/
theorem bad_date_drops_single_episode :
    ∀ (f : String → Option JsonValue) (el : Element) (jurl : String)
      (json : JsonValue),
      el.dataPlayerJson = some jurl → f jurl = some json →
      parseKCRWDate (goString (gjsonGet json ["date"])) = none →
      extractEpisode f el = none ∧
      (∀ pre post, collectEpisodes f (pre ++ el :: post)
          = collectEpisodes f (pre ++ post)) ∧
      (∀ pre post, fetchEpisodes f (.ok (pre ++ el :: post))
          = fetchEpisodes f (.ok (pre ++ post))) := by
  intro f el jurl json hattr hfetch hdate
  have hnone : extractEpisode f el = none := by
    unfold extractEpisode
    rw [hattr]
    dsimp only
    rw [hfetch]
    dsimp only
    cases hdur : parseSecondsDuration (goInt (gjsonGet json ["duration"])) with
    | none => rfl
    | some d =>
      dsimp only
      rw [hdate]
  have hcoll : ∀ pre post, collectEpisodes f (pre ++ el :: post)
      = collectEpisodes f (pre ++ post) := by
    intro pre post
    rw [collectEpisodes_eq_filterMap, collectEpisodes_eq_filterMap]
    simp [List.filterMap_append, List.filterMap_cons, hnone]
  refine ⟨hnone, hcoll, ?_⟩
  intro pre post
  unfold fetchEpisodes
  dsimp only
  rw [hcoll]

/-- C6 witness: the element pointing at the unparsable date is dropped
while the good element before it survives, and the batch result is
identical to the batch without the bad element. -/
theorem bad_date_drops_single_episode_witness :
    extractEpisode fetch1 elBad = none ∧
    fetchEpisodes fetch1 (.ok ([el0] ++ elBad :: [])) =
      fetchEpisodes fetch1 (.ok ([el0] ++ [])) :=
  ⟨(bad_date_drops_single_episode fetch1 elBad
      "https://www.kcrw.com/player/bad.json" payloadBadDate rfl rfl rfl).1,
   (bad_date_drops_single_episode fetch1 elBad
      "https://www.kcrw.com/player/bad.json" payloadBadDate rfl rfl rfl).2.2
     [el0] []⟩

/-- C7: when the payload's integer duration is `n ≥ 0` and the episode is
kept, its Duration is exactly `n` seconds (`n * 10^9` nanoseconds); when
the constructed duration literal fails to parse, the episode is skipped
entirely — no 2-minute fallback exists on this path. -/
theorem duration_exact_seconds_or_skip :
    ∀ (f : String → Option JsonValue) (el : Element) (jurl : String)
      (json : JsonValue) (n : Int),
      el.dataPlayerJson = some jurl → f jurl = some json →
      goInt (gjsonGet json ["duration"]) = n →
      (0 ≤ n → ∀ ep, extractEpisode f el = some ep →
        ep.Duration = n * 1000000000) ∧
      (parseSecondsDuration n = none → extractEpisode f el = none) := by
  intro f el jurl json n hattr hfetch hn
  constructor
  · intro _ ep hex
    obtain ⟨jurl', json', d, dt, hattr', hfetch', hdur, hdate, hep⟩ :=
      extractEpisode_some_inv hex
    rw [hattr] at hattr'
    injection hattr' with hj
    subst hj
    rw [hfetch] at hfetch'
    injection hfetch' with hj
    subst hj
    rw [hn] at hdur
    unfold parseSecondsDuration at hdur
    split at hdur
    · injection hdur with hd
      subst hep
      exact hd.symm
    · exact absurd hdur (by simp)
  · intro hparse
    unfold extractEpisode
    rw [hattr]
    dsimp only
    rw [hfetch]
    dsimp only
    rw [hn, hparse]

/-- C7 witness: the concrete payload with duration 3480 yields exactly 3480
seconds, and the payload whose duration literal overflows
`time.ParseDuration` is skipped. -/
theorem duration_exact_seconds_or_skip_witness :
    ep0.Duration = 3480 * 1000000000 ∧
    extractEpisode fetchHuge elHuge = none :=
  ⟨(duration_exact_seconds_or_skip fetch0 el0
      "https://www.kcrw.com/player/ep1.json" payload0 3480 rfl rfl rfl).1
      (by decide) ep0 (by rfl),
   (duration_exact_seconds_or_skip fetchHuge elHuge
      "https://www.kcrw.com/player/huge.json" payloadHugeDur 9223372037
      rfl rfl rfl).2 (by rfl)⟩

/-- C3 counterexample: a payload missing the `uuid` and `media.0.url`
fields does NOT cause its episode to be skipped — the episode appears in
the result with empty strings for those fields, refuting the claim that a
missing expected field aborts that episode's extraction. -/
theorem missing_uuid_episode_still_extracted :
    gjsonGet payloadMissing ["uuid"] = none ∧
    gjsonGet payloadMissing ["media", "0", "url"] = none ∧
    fetchEpisodes fetchMissing (.ok [elMissing]) = .ok [epMissing] ∧
    epMissing.UUID = "" ∧ epMissing.MP3 = "" :=
  ⟨rfl, rfl, rfl, rfl, rfl⟩

/-- C3 amended: per-episode extraction is aborted only by a missing
`data-player-json` attribute, a failed secondary fetch, a duration-parse
failure, or a date-parse failure; a payload missing `uuid`, `url`, `title`
or `media.0.url` still yields an episode, with gjson's empty-string default
for the missing fields, and extraction of the remaining elements continues
regardless. -/
theorem extract_keeps_missing_string_fields :
    ∀ (f : String → Option JsonValue) (el : Element) (jurl : String)
      (json : JsonValue) (d : Int) (dt : DateTime),
      el.dataPlayerJson = some jurl → f jurl = some json →
      parseSecondsDuration (goInt (gjsonGet json ["duration"])) = some d →
      parseKCRWDate (goString (gjsonGet json ["date"])) = some dt →
      extractEpisode f el =
        some { Title := goString (gjsonGet json ["title"]),
               Link := goString (gjsonGet json ["url"]),
               MP3 := goString (gjsonGet json ["media", "0", "url"]),
               UUID := goString (gjsonGet json ["uuid"]),
               PubDate := subOneDay dt,
               Duration := d } ∧
      (∀ els, collectEpisodes f (el :: els) =
        { Title := goString (gjsonGet json ["title"]),
          Link := goString (gjsonGet json ["url"]),
          MP3 := goString (gjsonGet json ["media", "0", "url"]),
          UUID := goString (gjsonGet json ["uuid"]),
          PubDate := subOneDay dt,
          Duration := d } :: collectEpisodes f els) := by
  intro f el jurl json d dt hattr hfetch hdur hdate
  have h := extractEpisode_eq_some hattr hfetch hdur hdate
  refine ⟨h, fun els => ?_⟩
  rw [collectEpisodes_eq_filterMap, collectEpisodes_eq_filterMap,
    List.filterMap_cons, h]

/-- C3 witness: instantiated at the payload missing `uuid`, `url` and
`media`, whose episode survives with empty strings in those fields. -/
theorem extract_keeps_missing_string_fields_witness :
    extractEpisode fetchMissing elMissing =
      some { Title := goString (gjsonGet payloadMissing ["title"]),
             Link := goString (gjsonGet payloadMissing ["url"]),
             MP3 := goString (gjsonGet payloadMissing ["media", "0", "url"]),
             UUID := goString (gjsonGet payloadMissing ["uuid"]),
             PubDate := subOneDay ⟨2021, 6, 15, 10, 0, 0⟩,
             Duration := 60000000000 } ∧
    collectEpisodes fetchMissing (elMissing :: []) =
      { Title := goString (gjsonGet payloadMissing ["title"]),
        Link := goString (gjsonGet payloadMissing ["url"]),
        MP3 := goString (gjsonGet payloadMissing ["media", "0", "url"]),
        UUID := goString (gjsonGet payloadMissing ["uuid"]),
        PubDate := subOneDay ⟨2021, 6, 15, 10, 0, 0⟩,
        Duration := 60000000000 } :: collectEpisodes fetchMissing [] :=
  ⟨(extract_keeps_missing_string_fields fetchMissing elMissing
      "https://www.kcrw.com/player/missing.json" payloadMissing
      60000000000 ⟨2021, 6, 15, 10, 0, 0⟩ rfl rfl (by rfl) (by rfl)).1,
   (extract_keeps_missing_string_fields fetchMissing elMissing
      "https://www.kcrw.com/player/missing.json" payloadMissing
      60000000000 ⟨2021, 6, 15, 10, 0, 0⟩ rfl rfl (by rfl) (by rfl)).2 []⟩

/-- C9 counterexample: after a successful generation produced
`<rss>last</rss>`, a failed hourly refresh makes the feed path serve the
inline error message, not the last successfully generated document — the
refresh assignment overwrote both `xml` and `err`. -/
theorem failed_refresh_discards_last_document :
    rssHandler (serverStateAfter (.ok "<rss>last</rss>")
      [.error "fetch failed"]) = "error!\nfetch failed" ∧
    "error!\nfetch failed" ≠ "<rss>last</rss>" :=
  ⟨rfl, by decide⟩

/-- C9 amended: every request to the feed path is answered according to the
most recent generation attempt — its document if it succeeded, an inline
error message if it failed; a failed refresh therefore replaces the last
successful document rather than preserving it. -/
theorem rssHandler_serves_latest_generation :
    ∀ (first : Except String String)
      (refreshes : List (Except String String)),
      rssHandler (serverStateAfter first refreshes) =
        match lastGeneration first refreshes with
        | .ok s => s
        | .error e => "error!\n" ++ e := by
  intro first refreshes
  induction refreshes generalizing first with
  | nil => cases first <;> rfl
  | cons r rs ih => exact ih r

end Fanatic
